import Mathlib

/-!
Verification of the vibetide audio-streaming subsystem.

The development shallowly embeds the two core modules:

* the `AudioFetcher` class (metadata probing with a per-session cache,
  byte-range fetching, streaming-blob creation, range preloading), and
* the `useRangeAudioPlayer` hook (playback-coordinator state: current track,
  play flag, duration, seek position, loading/error flags, the set of
  preloaded byte ranges, and the track-load / seek / next / previous
  handlers).

Network and browser boundaries (fetch, AudioContext decoding, the native
audio element) are modelled as oracle functions and externally scheduled
events; everything on the repository side of those boundaries is translated
directly from the source.  Definitions come first, theorems afterwards.
-/

/-! ## Definitions -/

/-! ### Decimal rendering of natural numbers

JavaScript template literals render a nonnegative integer in decimal; the
repository builds cache keys and Range headers this way.  `natDigits` is the
decimal digit list of a natural number, most significant digit first. -/

def natDigits (n : Nat) : List Char :=
  if n < 10 then [Nat.digitChar n]
  else natDigits (n / 10) ++ [Nat.digitChar (n % 10)]
termination_by n
decreasing_by
  exact Nat.div_lt_self (by omega) (by omega)

def natToStr (n : Nat) : String := String.mk (natDigits n)

/-! ### Range keys of the hook's preload cache

`useRangeAudioPlayer.preloadRange` (part_000, line 101) builds the key
`` `${trackPath}:${range.start}-${range.end}` `` for the `preloadedRanges`
set.  Byte offsets are nonnegative integers, so the interpolation renders
them in decimal. -/

def rangeKey (trackPath : String) (s e : Nat) : String :=
  trackPath ++ ":" ++ natToStr s ++ "-" ++ natToStr e

/-! ### Data model of the `AudioFetcher` (part_001)

`AudioMetadata` mirrors the interface at part_001 lines 6-11; durations are
modelled as rationals (exact stand-ins for the JS floating-point seconds). -/

structure AudioMetadata where
  duration : ℚ
  size : Nat
  contentType : String
  acceptRanges : Bool
deriving DecidableEq

/-- `RangeRequest` (part_001 lines 13-16): `end` is optional; the field is
called `stop` here because `end` is reserved in Lean. -/
structure RangeRequest where
  start : Nat
  stop : Option Nat
deriving DecidableEq

/-- An outbound HTTP request as issued through `fetch`: a URL plus the
optional `Range` header.  `rangeHeader = none` means the resource is
requested in full. -/
structure HttpRequest where
  url : String
  rangeHeader : Option String
deriving DecidableEq

/-- The transport's answer, as far as the fetcher inspects it. -/
structure HttpResponse where
  status : Nat
  body : List Nat

/-- The fetcher throws `Error("Range request failed: " + status)`
(part_001 line 138); the observed status code is carried along. -/
structure RangeFetchError where
  status : Nat
  message : String
deriving DecidableEq

/-- `fetchRange` builds the `Range` header from the request
(part_001 lines 127-129).  JS truthiness: `range.end` of `0` (or absent)
selects the open-ended form `bytes=start-`. -/
def rangeHeaderStr (r : RangeRequest) : String :=
  match r.stop with
  | some e =>
      if e = 0 then "bytes=" ++ natToStr r.start ++ "-"
      else "bytes=" ++ natToStr r.start ++ "-" ++ natToStr e
  | none => "bytes=" ++ natToStr r.start ++ "-"

/-- The request issued by `AudioFetcher.fetchRange` (part_001 lines 131-135):
it always attaches a `Range` header, never consulting cached metadata. -/
def rangeReq (baseUrl audioPath : String) (r : RangeRequest) : HttpRequest :=
  { url := baseUrl ++ "/" ++ audioPath, rangeHeader := some (rangeHeaderStr r) }

/-- `AudioFetcher.fetchRange` (part_001 lines 126-142), with the transport
modelled as the oracle `net`.  The response is returned unless its status is
neither 206 nor 200, in which case a `RangeFetchError` is thrown. -/
def fetchRange (net : HttpRequest → HttpResponse) (baseUrl audioPath : String)
    (r : RangeRequest) : Except RangeFetchError HttpResponse :=
  let response := net (rangeReq baseUrl audioPath r)
  if response.status ≠ 206 ∧ response.status ≠ 200 then
    .error { status := response.status
             message := "Range request failed: " ++ natToStr response.status }
  else
    .ok response

/-- `AudioFetcher.preloadRange` (part_001 lines 193-196): delegates to
`fetchRange` and extracts the body bytes. -/
def preloadRangeFetch (net : HttpRequest → HttpResponse) (baseUrl audioPath : String)
    (r : RangeRequest) : Except RangeFetchError (List Nat) :=
  (fetchRange net baseUrl audioPath r).map (·.body)

/-- The request through which `AudioFetcher.createStreamingBlob`
(part_001 lines 162-188) obtains the bytes once metadata is known: when the
server does not support range requests it fetches the resource in full with
no `Range` header (lines 167-172); otherwise the blob's overridden
`arrayBuffer` lazily issues `fetchRange` with `{ start: 0 }` (lines 178-181). -/
def streamingBlobFetch (meta : AudioMetadata) (baseUrl audioPath : String) : HttpRequest :=
  if !meta.acceptRanges then
    { url := baseUrl ++ "/" ++ audioPath, rangeHeader := none }
  else
    rangeReq baseUrl audioPath { start := 0, stop := none }

/-! ### Metadata store (`AudioFetcher.getMetadata`, part_001 lines 29-68)

The HEAD probe and the duration determination (`getAudioDuration`,
lines 73-100, whose outer `catch` makes it total: any failure falls back to
`0`) sit on the network/decoder boundary and are modelled as oracles.  The
cache is the class's `Map` keyed by `"metadata:" + audioPath`; `probeCount`
instruments how many times the underlying probe sequence was executed. -/

/-- What the HEAD probe response exposes (part_001 lines 44-50). -/
structure HeadResponse where
  ok : Bool
  status : Nat
  contentLength : Option Nat
  contentType : Option String
  acceptRanges : Option String

/-- `Error("Failed to fetch metadata: " + status)` (part_001 line 45). -/
structure MetadataFetchError where
  status : Nat
deriving DecidableEq

structure FetcherState where
  cache : List (String × AudioMetadata)
  probeCount : Nat
deriving DecidableEq

def FetcherState.init : FetcherState := { cache := [], probeCount := 0 }

/-- `AudioFetcher.getMetadata` (part_001 lines 29-68).  On a cache hit the
cached value is returned untouched; on a miss the probe runs once
(HEAD request, then duration determination) and on success the entry is
cached for the session.  `clearCache` (lines 201-203) resets the map. -/
def getMetadata (head : String → HeadResponse) (durOf : String → ℚ)
    (st : FetcherState) (audioPath : String) :
    Except MetadataFetchError AudioMetadata × FetcherState :=
  let cacheKey := "metadata:" ++ audioPath
  match st.cache.lookup cacheKey with
  | some m => (.ok m, st)
  | none =>
      let response := head audioPath
      if response.ok = false then
        (.error { status := response.status }, { st with probeCount := st.probeCount + 1 })
      else
        let metadata : AudioMetadata :=
          { duration := durOf audioPath
            size := response.contentLength.getD 0
            contentType := response.contentType.getD "audio/mpeg"
            acceptRanges := response.acceptRanges == some "bytes" }
        (.ok metadata,
         { st with cache := (cacheKey, metadata) :: st.cache
                   probeCount := st.probeCount + 1 })

def clearCache (st : FetcherState) : FetcherState := { st with cache := [] }

/-! ### Playback coordinator (`useRangeAudioPlayer`, part_000)

The hook's React state cells become one record.  `audioSrc` mirrors
`audioRef.current.src`, `metadataRef` the metadata ref, and
`preloadedRanges` the set of range keys (modelled as the list of inserted
keys; JS `Set.has` is membership). -/

structure ByteRange where
  start : Nat
  stop : Nat
deriving DecidableEq

structure HookState where
  currentTrack : Nat
  isPlaying : Bool
  volume : ℚ
  duration : ℚ
  seek : ℚ
  isLoading : Bool
  error : Option String
  audioSrc : Option String
  metadataRef : Option AudioMetadata
  preloadedRanges : List String
deriving DecidableEq

/-- The hook's initial state (part_000 lines 7-17). -/
def HookState.init : HookState :=
  { currentTrack := 0, isPlaying := false, volume := 1, duration := 0, seek := 0
    isLoading := false, error := none, audioSrc := none, metadataRef := none
    preloadedRanges := [] }

/-- Insertion into `preloadedRanges` (part_000 line 109). -/
def markPreloaded (ranges : List String) (trackPath : String) (r : ByteRange) :
    List String :=
  rangeKey trackPath r.start r.stop :: ranges

/-- The membership test `preloadedRanges.current.has(rangeKey)`
(part_000 line 103). -/
def hasPreloaded (ranges : List String) (trackPath : String) (r : ByteRange) : Bool :=
  ranges.contains (rangeKey trackPath r.start r.stop)

/-- `handleNext` (part_000 lines 129-132): advance modulo the track count and
set the play intent. -/
def handleNext (numTracks : Nat) (s : HookState) : HookState :=
  { s with currentTrack := (s.currentTrack + 1) % numTracks, isPlaying := true }

/-- `handlePrev` (part_000 lines 137-142): wrap to the last track from index
0, otherwise step back; set the play intent. -/
def handlePrev (numTracks : Nat) (s : HookState) : HookState :=
  { s with
      currentTrack := if s.currentTrack = 0 then numTracks - 1 else s.currentTrack - 1
      isPlaying := true }

structure SeekResult where
  seekTime : ℚ
  window : ByteRange
deriving DecidableEq

/-- `handleSeek` (part_000 lines 144-161), for a loaded track (the guard at
line 145 requires the audio element and the metadata ref to be present).
The clamp is `Math.max(0, Math.min(newSeek, duration))`; the preload window
is centred on `Math.floor(seekTime) * 1024 * 1024` with 512 KiB before
(clamped at 0 — `Nat` subtraction is exactly `Math.max(0, ...)`) and 1 MiB
after (clamped at the file size). -/
def handleSeek (duration : ℚ) (size : Nat) (newSeek : ℚ) : SeekResult :=
  let seekTime := max 0 (min newSeek duration)
  let seekPosition := (Int.floor seekTime).toNat
  let rangeStart := seekPosition * 1024 * 1024 - 512 * 1024
  let rangeEnd := min size (seekPosition * 1024 * 1024 + 1024 * 1024)
  { seekTime := seekTime, window := { start := rangeStart, stop := rangeEnd } }

/-- Modelled from the spec, as the comparison target for the seek-preload
window: the spec derives the window from the target's approximate byte
offset `t/d*s` (target seconds over duration, scaled by the file size),
starting 512 KiB before that offset (clamped below at 0) and ending 1 MiB
after it (clamped above at the file size).  The source (`handleSeek`) does
not compute this. -/
def specSeekWindow (t d : ℚ) (size : Nat) : ByteRange :=
  let off := (Int.floor (t / d * size)).toNat
  { start := off - 512 * 1024, stop := min size (off + 1024 * 1024) }

/-! ### Event model of `loadTrack` and the listeners (part_000)

`loadTrack` (lines 19-50) is an async function whose suspension points are
the two awaited fetches (`getMetadata`, `createStreamingBlob`); the final
prefix preload (line 44) is fired without `await`, and the hook-level
`preloadRange` (lines 100-113) swallows its own failures with a
`console.warn`.  Each atomic segment between suspension points — together
with `handleNext` and the `canplay` listener (line 60) that clears
`isLoading` — becomes one event; an execution is a list of events folded
over the state, so any interleaving of two in-flight `loadTrack` calls is a
shuffle of their event sequences. -/

inductive HookEvent where
  /-- `handleNext` runs (synchronously): lines 129-132. -/
  | next (numTracks : Nat)
  /-- `loadTrack`'s synchronous prologue, lines 22-24:
  `setIsLoading(true); setError(null); setSeek(0)`. -/
  | loadBegin
  /-- The awaited `getMetadata` resolved with `m`; lines 28-30 run:
  `metadataRef.current = metadata; setDuration(metadata.duration)`. -/
  | loadMetaOk (m : AudioMetadata)
  /-- The awaited `getMetadata` rejected; the `catch` (lines 46-49) runs. -/
  | loadMetaErr (msg : String)
  /-- The awaited `createStreamingBlob` resolved with `url`; lines 33-41 run
  (revoke the previous blob URL, set `src`, call `load()`). -/
  | loadBlobOk (url : String)
  /-- The awaited `createStreamingBlob` rejected; the `catch` runs. -/
  | loadBlobErr (msg : String)
  /-- The hook-level `preloadRange` fetch succeeded and the key was added
  (line 109). -/
  | preloadOk (trackPath : String) (r : ByteRange)
  /-- The hook-level `preloadRange` fetch failed: the `catch`
  (lines 110-112) only logs a warning — observable state is untouched. -/
  | preloadErr
  /-- The native audio element fired `canplay`: `setIsLoading(false)`
  (line 60). -/
  | canplay
deriving DecidableEq

def applyEvent : HookEvent → HookState → HookState
  | .next numTracks, s => handleNext numTracks s
  | .loadBegin, s => { s with isLoading := true, error := none, seek := 0 }
  | .loadMetaOk m, s => { s with metadataRef := some m, duration := m.duration }
  | .loadMetaErr msg, s =>
      { s with error := some ("Failed to load track: " ++ msg), isLoading := false }
  | .loadBlobOk url, s => { s with audioSrc := some url }
  | .loadBlobErr msg, s =>
      { s with error := some ("Failed to load track: " ++ msg), isLoading := false }
  | .preloadOk trackPath r, s =>
      { s with preloadedRanges := markPreloaded s.preloadedRanges trackPath r }
  | .preloadErr, s => s
  | .canplay, s => { s with isLoading := false }

def run (events : List HookEvent) (s : HookState) : HookState :=
  events.foldl (fun s e => applyEvent e s) s

/-! ### Concrete fixtures used by counterexamples and witnesses -/

/-- Metadata as track `a.mp3` reports it in the spec's end-to-end scenario:
200 s, 5,000,000 bytes, range support. -/
def mTrackA : AudioMetadata :=
  { duration := 200, size := 5000000, contentType := "audio/mpeg", acceptRanges := true }

/-- A second, distinguishable track's metadata. -/
def mTrackB : AudioMetadata :=
  { duration := 300, size := 7000000, contentType := "audio/mpeg", acceptRanges := true }

/-- Metadata of a resource that does not support range requests. -/
def metaNoRanges : AudioMetadata :=
  { duration := 200, size := 5000000, contentType := "audio/mpeg", acceptRanges := false }

/-- A fetcher state whose cache records `a.mp3` as not supporting ranges. -/
def cacheNoRanges : FetcherState :=
  { cache := [("metadata:" ++ "a.mp3", metaNoRanges)], probeCount := 1 }

/-- A HEAD-probe oracle answering like the proxy for `a.mp3`. -/
def head0 : String → HeadResponse := fun _ =>
  { ok := true, status := 200, contentLength := some 5000000
    contentType := some "audio/mpeg", acceptRanges := some "bytes" }

/-- A duration oracle: decodes every track as 200 s. -/
def durOf0 : String → ℚ := fun _ => 200

/-- The fetcher state after one successful probe for `a.mp3`. -/
def st1 : FetcherState :=
  { cache := [("metadata:" ++ "a.mp3", mTrackA)], probeCount := 1 }

/-- An interleaving in which `loadTrack` for track A (index 0) is suspended
at its metadata `await` when `next()` switches to track B (index 1);
B's load then runs to completion, after which A's stale responses resolve.
It is a shuffle of A's event sequence `[loadBegin, loadMetaOk, loadBlobOk]`
with `[next, loadBegin, loadMetaOk, loadBlobOk, canplay]` for the switch and
B's load. -/
def staleSchedule : List HookEvent :=
  [.loadBegin, .next 2, .loadBegin, .loadMetaOk mTrackB, .loadBlobOk "blob:b",
   .canplay, .loadMetaOk mTrackA, .loadBlobOk "blob:a"]

/-! ## Theorems -/

/-! ### Properties of the decimal rendering -/

theorem natDigits_def (n : Nat) :
    natDigits n =
      if n < 10 then [Nat.digitChar n]
      else natDigits (n / 10) ++ [Nat.digitChar (n % 10)] := by
  rw [natDigits]

theorem digitChar_isDigit_of_lt : ∀ m, m < 10 → (Nat.digitChar m).isDigit = true := by
  decide

theorem digitChar_inj_of_lt :
    ∀ a, a < 10 → ∀ b, b < 10 → Nat.digitChar a = Nat.digitChar b → a = b := by
  decide

theorem natDigits_all_digit (n : Nat) : ∀ c ∈ natDigits n, c.isDigit = true := by
  induction n using Nat.strong_induction_on with
  | _ n ih =>
    rw [natDigits_def]
    split
    · intro c hc
      simp only [List.mem_singleton] at hc
      subst hc
      exact digitChar_isDigit_of_lt n (by omega)
    · intro c hc
      rcases List.mem_append.mp hc with h1 | h2
      · exact ih (n / 10) (Nat.div_lt_self (by omega) (by omega)) c h1
      · simp only [List.mem_singleton] at h2
        subst h2
        exact digitChar_isDigit_of_lt (n % 10) (Nat.mod_lt _ (by omega))

theorem natDigits_ne_nil (n : Nat) : natDigits n ≠ [] := by
  rw [natDigits_def]
  split <;> simp

theorem natDigits_inj (m : Nat) : ∀ n, natDigits m = natDigits n → m = n := by
  induction m using Nat.strong_induction_on with
  | _ m ih =>
    intro n h
    rw [natDigits_def m, natDigits_def n] at h
    split at h <;> split at h
    · simp only [List.cons.injEq, and_true] at h
      exact digitChar_inj_of_lt m (by omega) n (by omega) h
    · exfalso
      have hlen := congrArg List.length h
      simp only [List.length_singleton, List.length_append] at hlen
      have : (natDigits (n / 10)).length = 0 := by omega
      exact natDigits_ne_nil (n / 10) (List.length_eq_zero.mp this)
    · exfalso
      have hlen := congrArg List.length h
      simp only [List.length_singleton, List.length_append] at hlen
      have : (natDigits (m / 10)).length = 0 := by omega
      exact natDigits_ne_nil (m / 10) (List.length_eq_zero.mp this)
    · have hrev := congrArg List.reverse h
      simp only [List.reverse_append, List.reverse_cons, List.reverse_nil,
        List.nil_append, List.singleton_append, List.cons.injEq] at hrev
      obtain ⟨hhd, htl⟩ := hrev
      have hmod : m % 10 = n % 10 :=
        digitChar_inj_of_lt (m % 10) (Nat.mod_lt _ (by omega)) (n % 10)
          (Nat.mod_lt _ (by omega)) hhd
      have hdigits : natDigits (m / 10) = natDigits (n / 10) := by
        have := congrArg List.reverse htl
        simpa using this
      have hdiv : m / 10 = n / 10 :=
        ih (m / 10) (Nat.div_lt_self (by omega) (by omega)) (n / 10) hdigits
      omega

theorem natToStr_inj {m n : Nat} (h : natToStr m = natToStr n) : m = n := by
  have : natDigits m = natDigits n := congrArg String.data h
  exact natDigits_inj m n this

/-! ### Splitting a list at a separator character -/

theorem append_cons_inj {α : Type} (c : α) :
    ∀ (xs₁ xs₂ ys₁ ys₂ : List α), c ∉ xs₁ → c ∉ xs₂ →
      xs₁ ++ c :: ys₁ = xs₂ ++ c :: ys₂ → xs₁ = xs₂ ∧ ys₁ = ys₂ := by
  intro xs₁
  induction xs₁ with
  | nil =>
    intro xs₂ ys₁ ys₂ _ h2 h
    cases xs₂ with
    | nil => simpa using h
    | cons b bs =>
      exfalso
      simp only [List.nil_append, List.cons_append, List.cons.injEq] at h
      exact h2 (h.1 ▸ List.mem_cons_self _ _)
  | cons a as ih =>
    intro xs₂ ys₁ ys₂ h1 h2 h
    cases xs₂ with
    | nil =>
      exfalso
      simp only [List.nil_append, List.cons_append, List.cons.injEq] at h
      exact h1 (h.1 ▸ List.mem_cons_self _ _)
    | cons b bs =>
      simp only [List.cons_append, List.cons.injEq] at h
      obtain ⟨hab, htl⟩ := h
      have h1' : c ∉ as := fun hm => h1 (List.mem_cons_of_mem _ hm)
      have h2' : c ∉ bs := fun hm => h2 (List.mem_cons_of_mem _ hm)
      obtain ⟨hx, hy⟩ := ih bs ys₁ ys₂ h1' h2' htl
      exact ⟨by rw [hab, hx], hy⟩

theorem append_cons_inj_last {α : Type} (c : α) (xs₁ xs₂ ys₁ ys₂ : List α)
    (h1 : c ∉ ys₁) (h2 : c ∉ ys₂)
    (h : xs₁ ++ c :: ys₁ = xs₂ ++ c :: ys₂) : xs₁ = xs₂ ∧ ys₁ = ys₂ := by
  have hrev := congrArg List.reverse h
  simp only [List.reverse_append, List.reverse_cons] at hrev
  rw [List.append_assoc, List.append_assoc, List.singleton_append,
    List.singleton_append] at hrev
  have h1' : c ∉ ys₁.reverse := by simpa using h1
  have h2' : c ∉ ys₂.reverse := by simpa using h2
  obtain ⟨ha, hb⟩ :=
    append_cons_inj c ys₁.reverse ys₂.reverse xs₁.reverse xs₂.reverse h1' h2' hrev
  constructor
  · have := congrArg List.reverse hb
    simpa using this
  · have := congrArg List.reverse ha
    simpa using this

/-! ### Injectivity of the preload-cache key -/

theorem data_append (a b : String) : (a ++ b).data = a.data ++ b.data := rfl

theorem rangeKey_data (p : String) (s e : Nat) :
    (rangeKey p s e).data = p.data ++ ':' :: (natDigits s ++ '-' :: natDigits e) := by
  show (p.data ++ [':'] ++ natDigits s ++ ['-'] ++ natDigits e) =
    p.data ++ ':' :: (natDigits s ++ '-' :: natDigits e)
  simp

theorem colon_not_mem_suffix (s e : Nat) : ':' ∉ natDigits s ++ '-' :: natDigits e := by
  intro hmem
  rcases List.mem_append.mp hmem with h | h
  · have := natDigits_all_digit s ':' h
    exact absurd this (by decide)
  · rcases List.mem_cons.mp h with h | h
    · exact absurd h (by decide)
    · have := natDigits_all_digit e ':' h
      exact absurd this (by decide)

theorem dash_not_mem_digits (n : Nat) : '-' ∉ natDigits n := by
  intro hmem
  have := natDigits_all_digit n '-' hmem
  exact absurd this (by decide)

theorem rangeKey_inj {p₁ p₂ : String} {s₁ e₁ s₂ e₂ : Nat}
    (h : rangeKey p₁ s₁ e₁ = rangeKey p₂ s₂ e₂) : p₁ = p₂ ∧ s₁ = s₂ ∧ e₁ = e₂ := by
  have hd := congrArg String.data h
  rw [rangeKey_data, rangeKey_data] at hd
  obtain ⟨hp, hsuffix⟩ :=
    append_cons_inj_last ':' p₁.data p₂.data _ _
      (colon_not_mem_suffix s₁ e₁) (colon_not_mem_suffix s₂ e₂) hd
  obtain ⟨hs, he⟩ :=
    append_cons_inj '-' (natDigits s₁) (natDigits s₂) (natDigits e₁) (natDigits e₂)
      (dash_not_mem_digits s₁) (dash_not_mem_digits s₂) hsuffix
  refine ⟨?_, natDigits_inj s₁ s₂ hs, natDigits_inj e₁ e₂ he⟩
  cases p₁
  cases p₂
  exact congrArg String.mk hp

/-! ### Claim theorems -/

/-- C6: for every byte range, `fetchRange` either returns the transport
response — accepting full success (status 200) and partial success
(status 206) alike as retrievable content — or fails with a
`RangeFetchError`; it fails exactly when the status is neither 206 nor 200,
and the error then carries the observed status code. -/
theorem fetchRange_success_or_rangeFetchError (net : HttpRequest → HttpResponse)
    (baseUrl audioPath : String) (r : RangeRequest) :
    (fetchRange net baseUrl audioPath r = .ok (net (rangeReq baseUrl audioPath r))
      ↔ ((net (rangeReq baseUrl audioPath r)).status = 206 ∨
         (net (rangeReq baseUrl audioPath r)).status = 200)) ∧
    (∀ err : RangeFetchError,
      fetchRange net baseUrl audioPath r = .error err
        ↔ ((net (rangeReq baseUrl audioPath r)).status ≠ 206 ∧
           (net (rangeReq baseUrl audioPath r)).status ≠ 200 ∧
           err.status = (net (rangeReq baseUrl audioPath r)).status ∧
           err.message = "Range request failed: " ++
             natToStr (net (rangeReq baseUrl audioPath r)).status)) := by
  by_cases hc : (net (rangeReq baseUrl audioPath r)).status ≠ 206 ∧
      (net (rangeReq baseUrl audioPath r)).status ≠ 200
  · constructor
    · simp only [fetchRange, if_pos hc]
      constructor
      · intro h
        exact absurd h (by simp)
      · intro h
        rcases h with h | h
        · exact absurd h hc.1
        · exact absurd h hc.2
    · intro err
      simp only [fetchRange, if_pos hc]
      constructor
      · intro h
        have := (Except.error.injEq _ _).mp h.symm
        refine ⟨hc.1, hc.2, ?_, ?_⟩
        · rw [this]
        · rw [this]
      · intro h
        obtain ⟨-, -, hs, hm⟩ := h
        cases err
        simp_all
  · constructor
    · simp only [fetchRange, if_neg hc]
      constructor
      · intro _
        omega
      · intro _
        trivial
    · intro err
      simp only [fetchRange, if_neg hc]
      constructor
      · intro h
        exact absurd h (by simp)
      · intro h
        exact absurd ⟨h.1, h.2.1⟩ hc

/-- C8: for a loaded track, `handleSeek` clamps the target to
`[0, durationSeconds]`: the stored seek position is `max 0 (min t d)`,
so it lies in the interval, `seek(-5)` with duration 180 stores 0, and
`seek(500)` with duration 180 stores 180. -/
theorem handleSeek_clamps (d : ℚ) (size : Nat) (t : ℚ) (hd : 0 ≤ d) :
    0 ≤ (handleSeek d size t).seekTime ∧
    (handleSeek d size t).seekTime ≤ d ∧
    (handleSeek d size t).seekTime = max 0 (min t d) ∧
    (handleSeek 180 size (-5)).seekTime = 0 ∧
    (handleSeek 180 size 500).seekTime = 180 := by
  refine ⟨le_max_left 0 _, max_le hd (min_le_right t d), rfl, ?_, ?_⟩
  · show max 0 (min (-5 : ℚ) 180) = 0
    norm_num
  · show max 0 (min (500 : ℚ) 180) = 180
    norm_num

/-- C8 witness: the clamp theorem applied to duration 180, size 5,000,000,
target 150. -/
theorem handleSeek_clamps_witness :
    0 ≤ (handleSeek 180 5000000 150).seekTime ∧
    (handleSeek 180 5000000 150).seekTime ≤ 180 ∧
    (handleSeek 180 5000000 150).seekTime = max 0 (min 150 180) ∧
    (handleSeek 180 5000000 (-5)).seekTime = 0 ∧
    (handleSeek 180 5000000 500).seekTime = 180 :=
  handleSeek_clamps 180 5000000 150 (by norm_num)

/-- C10: for a non-empty track list of length `n` and current index `i < n`,
`handleNext` moves to `(i + 1) % n` (wrapping to 0 from the last track) and
`handlePrev` moves to `n - 1` from index 0 and to `i - 1` otherwise; both
set `isPlaying` to `true`. -/
theorem handleNext_handlePrev_spec (n : Nat) (s : HookState) (_hn : 0 < n)
    (hi : s.currentTrack < n) :
    (handleNext n s).currentTrack = (s.currentTrack + 1) % n ∧
    (handleNext n s).currentTrack =
      (if s.currentTrack + 1 = n then 0 else s.currentTrack + 1) ∧
    (handleNext n s).isPlaying = true ∧
    (handlePrev n s).currentTrack =
      (if s.currentTrack = 0 then n - 1 else s.currentTrack - 1) ∧
    (handlePrev n s).isPlaying = true := by
  refine ⟨rfl, ?_, rfl, rfl, rfl⟩
  show (s.currentTrack + 1) % n = _
  by_cases h : s.currentTrack + 1 = n
  · rw [if_pos h, h, Nat.mod_self]
  · rw [if_neg h, Nat.mod_eq_of_lt (by omega)]

/-- C10 witness: the next/previous theorem applied at track count 3 with the
initial state (current index 0). -/
theorem handleNext_handlePrev_spec_witness :
    (handleNext 3 HookState.init).currentTrack = (HookState.init.currentTrack + 1) % 3 ∧
    (handleNext 3 HookState.init).currentTrack =
      (if HookState.init.currentTrack + 1 = 3 then 0 else HookState.init.currentTrack + 1) ∧
    (handleNext 3 HookState.init).isPlaying = true ∧
    (handlePrev 3 HookState.init).currentTrack =
      (if HookState.init.currentTrack = 0 then 3 - 1 else HookState.init.currentTrack - 1) ∧
    (handlePrev 3 HookState.init).isPlaying = true :=
  handleNext_handlePrev_spec 3 HookState.init (by norm_num) (by decide)

/-- C7: after a successful `getMetadata`, a second call for the same
identifier (with no intervening `clearCache`) returns the identical cached
`AudioMetadata` with the fetcher state unchanged — in particular no further
probe runs — and the pair of calls performed exactly one probe when the
first call missed the cache (and zero when it hit). -/
theorem getMetadata_cached_idempotent (head : String → HeadResponse)
    (durOf : String → ℚ) (st st' : FetcherState) (audioPath : String)
    (m : AudioMetadata)
    (h : getMetadata head durOf st audioPath = (.ok m, st')) :
    getMetadata head durOf st' audioPath = (.ok m, st') ∧
    st'.probeCount = st.probeCount +
      (if st.cache.lookup ("metadata:" ++ audioPath) = none then 1 else 0) := by
  simp only [getMetadata] at h ⊢
  cases hl : st.cache.lookup ("metadata:" ++ audioPath) with
  | some m0 =>
      rw [hl] at h
      obtain ⟨hm, hst⟩ := Prod.mk.injEq .. ▸ h
      have hm' : m0 = m := by
        cases hm
        rfl
      subst hm'
      subst hst
      rw [hl]
      simp
  | none =>
      rw [hl] at h
      by_cases hok : (head audioPath).ok = false
      · rw [if_pos hok] at h
        exact absurd (congrArg Prod.fst h) (by simp)
      · rw [if_neg hok] at h
        obtain ⟨hm, hst⟩ := Prod.mk.injEq .. ▸ h
        have hm' : m = { duration := durOf audioPath
                         size := (head audioPath).contentLength.getD 0
                         contentType := (head audioPath).contentType.getD "audio/mpeg"
                         acceptRanges := (head audioPath).acceptRanges == some "bytes" } := by
          cases hm
          rfl
        have hlookup : st'.cache.lookup ("metadata:" ++ audioPath) = some m := by
          rw [← hst]
          simp [List.lookup, hm']
        rw [hlookup]
        constructor
        · rfl
        · rw [← hst]
          simp

/-- C7 witness: the idempotence theorem applied to a first call for `a.mp3`
from the empty-cache state, which succeeds with `mTrackA` and one probe. -/
theorem getMetadata_cached_idempotent_witness :
    getMetadata head0 durOf0 st1 "a.mp3" = (.ok mTrackA, st1) ∧
    st1.probeCount = FetcherState.init.probeCount +
      (if FetcherState.init.cache.lookup ("metadata:" ++ "a.mp3") = none then 1 else 0) :=
  getMetadata_cached_idempotent head0 durOf0 FetcherState.init st1 "a.mp3" mTrackA rfl

/-- C9: the range-presence cache is exact-match membership per
`(id, start, end)`: after marking range `r` for track `id`, the membership
check for `(id, r)` is true, while the check for any distinct pair
`(id', r')` — even an overlapping range of the same track — is exactly what
it was before the mark; no merging or coalescing occurs. -/
theorem preload_cache_exact_match (ranges : List String) (id id' : String)
    (r r' : ByteRange) (hne : ¬(id = id' ∧ r = r')) :
    hasPreloaded (markPreloaded ranges id r) id r = true ∧
    hasPreloaded (markPreloaded ranges id r) id' r' = hasPreloaded ranges id' r' := by
  constructor
  · simp [hasPreloaded, markPreloaded]
  · have hkey : rangeKey id' r'.start r'.stop ≠ rangeKey id r.start r.stop := by
      intro he
      obtain ⟨hp, hs, hstop⟩ := rangeKey_inj he
      apply hne
      refine ⟨hp.symm, ?_⟩
      cases r
      cases r'
      simp_all
    simp only [hasPreloaded, markPreloaded, List.contains_cons]
    rw [beq_eq_false_iff_ne.mpr hkey]
    simp

/-- C9 witness: marking `(a.mp3, [0, 1 MiB])` answers true for that exact
pair and leaves the overlapping `(a.mp3, [0, 2 MiB])` unaffected. -/
theorem preload_cache_exact_match_witness :
    hasPreloaded (markPreloaded [] "a.mp3" { start := 0, stop := 1048576 })
        "a.mp3" { start := 0, stop := 1048576 } = true ∧
    hasPreloaded (markPreloaded [] "a.mp3" { start := 0, stop := 1048576 })
        "a.mp3" { start := 0, stop := 2097152 } =
      hasPreloaded [] "a.mp3" { start := 0, stop := 2097152 } :=
  preload_cache_exact_match [] "a.mp3" "a.mp3"
    { start := 0, stop := 1048576 } { start := 0, stop := 2097152 } (by decide)

/-- C2 counterexample: `a.mp3` is cached with `supportsRangeRequests = false`,
yet the fetch issued by `fetchRange` (and hence by `preloadRange`, which
delegates to it) for that track still carries a `Range` header — a partial
request, not a full fetch.  Only `createStreamingBlob` falls back. -/
theorem fetchRange_ignores_range_support_flag :
    cacheNoRanges.cache.lookup ("metadata:" ++ "a.mp3") = some metaNoRanges ∧
    metaNoRanges.acceptRanges = false ∧
    (rangeReq "/api/audio" "a.mp3" { start := 0, stop := some 100 }).rangeHeader ≠
      none ∧
    preloadRangeFetch (fun _ => { status := 206, body := [] }) "/api/audio" "a.mp3"
        { start := 0, stop := some 100 } =
      (fetchRange (fun _ => { status := 206, body := [] }) "/api/audio" "a.mp3"
        { start := 0, stop := some 100 }).map (·.body) := by
  refine ⟨?_, rfl, ?_, rfl⟩
  · simp [cacheNoRanges, List.lookup]
  · simp [rangeReq]

/-- C2 amended: only `createStreamingBlob` consults the cached
`supportsRangeRequests` flag — when it is false, its fetch is a full request
with no `Range` header; `fetchRange` (and `preloadRange`, a delegation to
it) always attaches a `Range` header, regardless of the flag. -/
theorem range_support_fallback_only_in_streamingBlob (meta : AudioMetadata)
    (baseUrl audioPath : String) (r : RangeRequest)
    (hno : meta.acceptRanges = false) :
    (streamingBlobFetch meta baseUrl audioPath).rangeHeader = none ∧
    (streamingBlobFetch meta baseUrl audioPath).url = baseUrl ++ "/" ++ audioPath ∧
    (rangeReq baseUrl audioPath r).rangeHeader = some (rangeHeaderStr r) ∧
    (∀ net : HttpRequest → HttpResponse,
      preloadRangeFetch net baseUrl audioPath r =
        (fetchRange net baseUrl audioPath r).map (·.body)) := by
  refine ⟨?_, ?_, rfl, fun _ => rfl⟩
  · simp [streamingBlobFetch, hno]
  · simp [streamingBlobFetch, hno]

/-- C2 amended witness: the fallback theorem applied to the cached
no-range-support metadata of `a.mp3`. -/
theorem range_support_fallback_only_in_streamingBlob_witness :
    (streamingBlobFetch metaNoRanges "/api/audio" "a.mp3").rangeHeader = none ∧
    (streamingBlobFetch metaNoRanges "/api/audio" "a.mp3").url =
      "/api/audio" ++ "/" ++ "a.mp3" ∧
    (rangeReq "/api/audio" "a.mp3" { start := 0, stop := some 100 }).rangeHeader =
      some (rangeHeaderStr { start := 0, stop := some 100 }) ∧
    (∀ net : HttpRequest → HttpResponse,
      preloadRangeFetch net "/api/audio" "a.mp3" { start := 0, stop := some 100 } =
        (fetchRange net "/api/audio" "a.mp3" { start := 0, stop := some 100 }).map
          (·.body)) :=
  range_support_fallback_only_in_streamingBlob metaNoRanges "/api/audio" "a.mp3"
    { start := 0, stop := some 100 } rfl

/-- C1 counterexample: `seek(150)` on a 200-second, 5,000,000-byte track.
The handler derives the window from `floor(seekTime) * 1 MiB` — seconds
scaled by a fixed 1 MiB — not from the approximate byte offset
`t/d*s = 3,750,000`: the issued window is `[156,762,112, 5,000,000]`, whose
start lies beyond the end of the file, instead of the spec's
`[3,225,712, 4,798,576]`. -/
theorem seek_window_not_offset_derived :
    (handleSeek 200 5000000 150).window = { start := 156762112, stop := 5000000 } ∧
    specSeekWindow 150 200 5000000 = { start := 3225712, stop := 4798576 } ∧
    (handleSeek 200 5000000 150).window ≠ specSeekWindow 150 200 5000000 ∧
    5000000 < (handleSeek 200 5000000 150).window.start := by
  have hfloor : (Int.floor (max 0 (min (150 : ℚ) 200))).toNat = 150 := by
    norm_num
    decide
  have hfloor2 : (Int.floor ((150 : ℚ) / 200 * (5000000 : Nat))).toNat = 3750000 := by
    norm_num
    decide
  refine ⟨?_, ?_, ?_, ?_⟩
  · show (⟨_, _⟩ : ByteRange) = _
    rw [ByteRange.mk.injEq]
    rw [hfloor]
    norm_num
  · show (⟨_, _⟩ : ByteRange) = _
    rw [ByteRange.mk.injEq]
    rw [hfloor2]
    norm_num
  · intro h
    have h1 : (handleSeek 200 5000000 150).window.start =
        (Int.floor (max 0 (min (150 : ℚ) 200))).toNat * 1024 * 1024 - 512 * 1024 := rfl
    have h2 : (specSeekWindow 150 200 5000000).start =
        (Int.floor ((150 : ℚ) / 200 * (5000000 : Nat))).toNat - 512 * 1024 := rfl
    have := congrArg ByteRange.start h
    rw [h1, h2, hfloor, hfloor2] at this
    norm_num at this
  · show 5000000 < (Int.floor (max 0 (min (150 : ℚ) 200))).toNat * 1024 * 1024 - 512 * 1024
    rw [hfloor]
    norm_num

/-- C1 amended: the seek-preload window is derived from the byte offset
`floor(clamped target) * 1 MiB` (one mebibyte per second, not the
duration/size ratio): it starts 512 KiB before that offset (clamped below
at 0 by the truncating subtraction) and ends 1 MiB after it, clamped above
at the file size — so the window never extends past the end of the file,
but its start is not bounded by the file size. -/
theorem seek_window_second_scaled (d : ℚ) (size : Nat) (t : ℚ) :
    (handleSeek d size t).window.start =
      (Int.floor (max 0 (min t d))).toNat * 1024 * 1024 - 512 * 1024 ∧
    (handleSeek d size t).window.stop =
      min size ((Int.floor (max 0 (min t d))).toNat * 1024 * 1024 + 1024 * 1024) ∧
    (handleSeek d size t).window.stop ≤ size :=
  ⟨rfl, rfl, min_le_left _ _⟩

/-- C4 counterexample: `handleNext` sets `isPlaying` to true synchronously,
before the new track's load even begins — after the `next` event alone
`isPlaying` is already true with no load in progress, and while the load is
running (`isLoading = true`) `isPlaying` is still true.  So `isPlaying`
does become true before the loading phase of the new track has completed. -/
theorem isPlaying_true_before_load_completes :
    (run [.next 2] HookState.init).isPlaying = true ∧
    (run [.next 2] HookState.init).isLoading = false ∧
    (run [.next 2, .loadBegin] HookState.init).isPlaying = true ∧
    (run [.next 2, .loadBegin] HookState.init).isLoading = true :=
  ⟨rfl, rfl, rfl, rfl⟩

/-- C4 amended: after `next()`, `seekPositionSeconds` is reset to 0 and
`isLoading` transitions true (at the load prologue) and then false (at
`canplay`), but `isPlaying` is set to true immediately at the switch — the
play intent — and stays true throughout; it does not wait for the loading
phase to complete. -/
theorem next_sets_play_intent_immediately (s : HookState) (numTracks : Nat)
    (m : AudioMetadata) (url : String) :
    (run [.next numTracks] s).isPlaying = true ∧
    (run [.next numTracks, .loadBegin] s).seek = 0 ∧
    (run [.next numTracks, .loadBegin] s).isLoading = true ∧
    (run [.next numTracks, .loadBegin] s).isPlaying = true ∧
    (run [.next numTracks, .loadBegin, .loadMetaOk m, .loadBlobOk url,
        .canplay] s).isLoading = false ∧
    (run [.next numTracks, .loadBegin, .loadMetaOk m, .loadBlobOk url,
        .canplay] s).isPlaying = true ∧
    (run [.next numTracks, .loadBegin, .loadMetaOk m, .loadBlobOk url,
        .canplay] s).seek = 0 :=
  ⟨rfl, rfl, rfl, rfl, rfl, rfl, rfl⟩

/-- C5 counterexample: when the initial prefix preload fails after metadata
and streaming-handle creation succeeded, the hook-level `preloadRange`
`catch` swallows the failure with a console warning: the Coordinator does
not enter the Error state — `lastError` stays null — and `isLoading` is
still governed by the (pending) `canplay` event. -/
theorem preload_failure_swallowed :
    (run [.loadBegin, .loadMetaOk mTrackA, .loadBlobOk "blob:a", .preloadErr]
        HookState.init).error = none ∧
    (run [.loadBegin, .loadMetaOk mTrackA, .loadBlobOk "blob:a", .preloadErr]
        HookState.init).isLoading = true ∧
    (run [.loadBegin, .loadMetaOk mTrackA, .loadBlobOk "blob:a", .preloadErr]
        HookState.init).metadataRef = some mTrackA :=
  ⟨rfl, rfl, rfl⟩

/-- C5 amended: a failure of the metadata fetch or of streaming-handle
creation does surface `Failed to load track: …` in `lastError` with
`isLoading` cleared; a failure of the initial prefix preload is swallowed
(logged only), `lastError` stays null, and `isLoading` is cleared by the
`canplay` event rather than by any error path. -/
theorem load_failure_surfaces_except_preload (s : HookState) (msg : String)
    (m : AudioMetadata) (url : String) :
    (run [.loadBegin, .loadMetaErr msg] s).error =
      some ("Failed to load track: " ++ msg) ∧
    (run [.loadBegin, .loadMetaErr msg] s).isLoading = false ∧
    (run [.loadBegin, .loadMetaOk m, .loadBlobErr msg] s).error =
      some ("Failed to load track: " ++ msg) ∧
    (run [.loadBegin, .loadMetaOk m, .loadBlobErr msg] s).isLoading = false ∧
    (run [.loadBegin, .loadMetaOk m, .loadBlobOk url, .preloadErr] s).error = none ∧
    (run [.loadBegin, .loadMetaOk m, .loadBlobOk url, .preloadErr, .canplay]
        s).isLoading = false :=
  ⟨rfl, rfl, rfl, rfl, rfl, rfl⟩

/-- C3: `loadTrack` applies no "is this response still for the current
track?" guard after its awaits.  In `staleSchedule` — a legal interleaving:
track A's event sequence `[loadBegin, loadMetaOk mTrackA, loadBlobOk]` and
the switch-plus-track-B sequence `[next 2, loadBegin, loadMetaOk mTrackB,
loadBlobOk, canplay]` are both order-preserving subsequences — track A's
stale responses resolve after track B's load completed, and they overwrite
the Coordinator's state: the current track is B (index 1) yet the duration,
cached-metadata reference and audio source are track A's. -/
theorem stale_response_overwrites_current_track_state :
    [HookEvent.loadBegin, .loadMetaOk mTrackA, .loadBlobOk "blob:a"].Sublist
      staleSchedule ∧
    [HookEvent.next 2, .loadBegin, .loadMetaOk mTrackB, .loadBlobOk "blob:b",
      .canplay].Sublist staleSchedule ∧
    (run staleSchedule HookState.init).currentTrack = 1 ∧
    (run staleSchedule HookState.init).duration = mTrackA.duration ∧
    (run staleSchedule HookState.init).metadataRef = some mTrackA ∧
    (run staleSchedule HookState.init).audioSrc = some "blob:a" ∧
    mTrackA.duration ≠ mTrackB.duration := by
  refine ⟨?_, ?_, rfl, rfl, rfl, rfl, ?_⟩
  · decide
  · decide
  · intro h
    have : (200 : ℚ) = 300 := h
    norm_num at this
